import Mathlib

/-!
Verification of the context-switching core of `kctx.py` (a small
kubectx-like helper around the external `kubectl config` tool).

The embedding is shallow: every command of the source is a pure Lean
function of the results of the external subprocess calls it makes and of
the persisted state it loads. Persisted state (a Python dict mapping
string keys to string values, backed by a JSON file) is modelled as an
association list with unique keys; the dict operations `get`, item
assignment, and `pop` are modelled by `dget`, `dset` and `dpop`.

A command returns a `CmdOut` record holding its exit status, the lines it
printed on stdout and on stderr, the persisted state after the command,
whether `save_state` ran, and the list of external calls it performed.
-/

/-- PersistedState: a string-to-string mapping, modelled as an association
list. The source keeps it in `~/.config/kctx/state.json`; keys are unique
as in a Python dict. -/
abbrev Dict := List (String × String)

/-- Models Python dict lookup `d.get(k)`: the value at the first entry
whose key is `k`, if any. -/
def dget : Dict → String → Option String
  | [], _ => none
  | p :: rest, k => if p.1 = k then some p.2 else dget rest k

/-- Models Python `k in d`: whether the key is present. -/
def dhas : Dict → String → Bool
  | [], _ => false
  | p :: rest, k => p.1 = k || dhas rest k

/-- Models Python dict item assignment `d[k] = v`: replaces the value in
place when the key exists (keeping its position), appends otherwise. -/
def dset (d : Dict) (k v : String) : Dict :=
  if dhas d k then d.map (fun p => if p.1 = k then (k, v) else p)
  else d ++ [(k, v)]

/-- Models Python `d.pop(k, None)`: removes the entry with key `k`. -/
def dpop (d : Dict) (k : String) : Dict :=
  d.filter (fun p => p.1 ≠ k)

/-- Result of one external subprocess invocation, as captured by
`run_kubectl` in the source: `subprocess.CompletedProcess` restricted to
the fields the source reads. -/
structure Completed where
  returncode : Nat
  stdout : String
  stderr : String
deriving DecidableEq

/-- Models Python `str.strip()`: removes leading and trailing whitespace
(written over the character list so that it evaluates by kernel
reduction). -/
def pyStrip (s : String) : String :=
  ⟨((s.data.dropWhile Char.isWhitespace).reverse.dropWhile Char.isWhitespace).reverse⟩

/-- Models Python `str.lower()` (written over the character list so that
it evaluates by kernel reduction; the labels of interest are ASCII). -/
def pyLower (s : String) : String :=
  ⟨s.data.map Char.toLower⟩

/-- Models the source idiom `completed.stderr.strip() or "kubectl failed"`. -/
def errMsg (stderr : String) : String :=
  if pyStrip stderr = "" then "kubectl failed" else pyStrip stderr

/-- Models the Python f-string conversion `{s!r}` for ordinary context
names: the string wrapped in single quotes. -/
def pyRepr (s : String) : String := "\x27" ++ s ++ "\x27"

/-- Embeds `get_current_context`: `None` on non-zero exit, else the
stripped stdout, `None` when that is empty. -/
def get_current_context (c : Completed) : Option String :=
  if c.returncode ≠ 0 then none
  else if pyStrip c.stdout = "" then none
  else some (pyStrip c.stdout)

/-- Embeds `use_context`: raises (here: returns `Except.error`) with the
formatted message on non-zero exit, succeeds otherwise. -/
def use_context (c : Completed) (name : String) : Except String Unit :=
  if c.returncode ≠ 0 then
    Except.error ("Failed to switch context to " ++ pyRepr name ++ ": " ++ errMsg c.stderr)
  else Except.ok ()

/-- Embeds `rename_context`. -/
def rename_context (c : Completed) (old new : String) : Except String Unit :=
  if c.returncode ≠ 0 then
    Except.error ("Failed to rename context " ++ pyRepr old ++ " → " ++ pyRepr new
      ++ ": " ++ errMsg c.stderr)
  else Except.ok ()

/-- Embeds `delete_context`. -/
def delete_context (c : Completed) (name : String) : Except String Unit :=
  if c.returncode ≠ 0 then
    Except.error ("Failed to delete context " ++ pyRepr name ++ ": " ++ errMsg c.stderr)
  else Except.ok ()

def ANSI_RESET : String := "\x1b[0m"

def ANSI_RED : String := "\x1b[31m"

def ANSI_GREEN : String := "\x1b[32m"

def ANSI_YELLOW : String := "\x1b[33m"

def ANSI_CYAN : String := "\x1b[36m"

/-- Embeds `format_env_label`. -/
def format_env_label (env : String) (use_color : Bool) : String :=
  let label := "[" ++ env ++ "]"
  if !use_color then label
  else
    let env_lower := pyLower env
    let color :=
      if env_lower = "prod" then ANSI_RED
      else if env_lower = "dev" || env_lower = "development" then ANSI_GREEN
      else if env_lower = "stage" || env_lower = "staging" then ANSI_YELLOW
      else ANSI_CYAN
    color ++ label ++ ANSI_RESET

/-- Embeds `warn_if_prod`: the list of lines it prints on stderr, given
the label table already loaded from config (`load_labels` output) and
whether stderr is a TTY. -/
def warn_if_prod (labels : Dict) (errTty : Bool) (context : String) : List String :=
  match dget labels context with
  | none => []
  | some env =>
    if pyLower env = "prod" then
      ["WARNING: context " ++ pyRepr context ++ " is labeled " ++ format_env_label env errTty]
    else []

/-- Embeds `record_last_context`: given the loaded state and the current
context, returns the state after the call together with whether
`save_state` ran. The source returns without writing when `current` is
`None`; otherwise it sets key `last_context` and saves. -/
def record_last_context (st : Dict) : Option String → Dict × Bool
  | none => (st, false)
  | some current => (dset st "last_context" current, true)

/-- Embeds `get_last_context` on the loaded state. -/
def get_last_context (st : Dict) : Option String :=
  dget st "last_context"

/-- One external `kubectl` invocation, by subcommand, for tracking which
calls a command performed. -/
inductive ExtCall where
  | currentContext : ExtCall
  | useContext (name : String) : ExtCall
  | renameContext (old new : String) : ExtCall
  | deleteContext (name : String) : ExtCall
deriving DecidableEq

/-- Observable outcome of one CLI command: exit status, stdout lines,
stderr lines, the persisted state after the command, whether `save_state`
ran, and the external calls performed, in order. -/
structure CmdOut where
  exit : Nat
  out : List String
  err : List String
  state : Dict
  wrote : Bool
  calls : List ExtCall
deriving DecidableEq

/-- Results of the (up to three) external calls a switch command can
make: `current-context` before, `use-context`, `current-context` after. -/
structure SwitchCalls where
  currentBefore : Completed
  useRes : Completed
  currentAfter : Completed
deriving DecidableEq

/-- Embeds the success-rendering block shared by both branches of
`switch_context_command` (lines 295-305 and 319-329 of the source): the
stdout line for the re-queried current context (env label prepended when
the context is labeled) and the stderr lines from `warn_if_prod`. -/
def renderSuccess (labels : Dict) (outTty errTty : Bool) :
    Option String → List String × List String
  | none => ([], [])
  | some nc =>
    let line :=
      match dget labels nc with
      | some env => format_env_label env outTty ++ " " ++ nc
      | none => nc
    ([line], warn_if_prod labels errTty nc)

/-- Embeds `switch_context_command`. `st` is the persisted state as
loaded, `labels` the `load_labels` output, `outTty` and `errTty` whether
stdout and stderr are TTYs, and `calls` the results of the external
invocations the command may make. -/
def switch_context_command (st labels : Dict) (outTty errTty : Bool)
    (calls : SwitchCalls) (target : String) : CmdOut :=
  if target = "-" then
    let current := get_current_context calls.currentBefore
    match get_last_context st with
    | none =>
      { exit := 1, out := [], err := ["No last context recorded yet."],
        state := st, wrote := false, calls := [ExtCall.currentContext] }
    | some last =>
      match use_context calls.useRes last with
      | Except.error msg =>
        { exit := 1, out := [], err := [msg], state := st, wrote := false,
          calls := [ExtCall.currentContext, ExtCall.useContext last] }
      | Except.ok _ =>
        { exit := 0,
          out := (renderSuccess labels outTty errTty
            (get_current_context calls.currentAfter)).1,
          err := (renderSuccess labels outTty errTty
            (get_current_context calls.currentAfter)).2,
          state := (record_last_context st current).1,
          wrote := (record_last_context st current).2,
          calls := [ExtCall.currentContext, ExtCall.useContext last,
            ExtCall.currentContext] }
  else
    let current_before := get_current_context calls.currentBefore
    match use_context calls.useRes target with
    | Except.error msg =>
      { exit := 1, out := [], err := [msg], state := st, wrote := false,
        calls := [ExtCall.currentContext, ExtCall.useContext target] }
    | Except.ok _ =>
      { exit := 0,
        out := (renderSuccess labels outTty errTty
          (get_current_context calls.currentAfter)).1,
        err := (renderSuccess labels outTty errTty
          (get_current_context calls.currentAfter)).2,
        state := (record_last_context st current_before).1,
        wrote := (record_last_context st current_before).2,
        calls := [ExtCall.currentContext, ExtCall.useContext target,
          ExtCall.currentContext] }

/-- Embeds `rename_context_command`: delegates to `rename_context`; on
success, updates `last_context` to the new name exactly when it equalled
the old name. -/
def rename_context_command (st : Dict) (renameRes : Completed)
    (old new : String) : CmdOut :=
  match rename_context renameRes old new with
  | Except.error msg =>
    { exit := 1, out := [], err := [msg], state := st, wrote := false,
      calls := [ExtCall.renameContext old new] }
  | Except.ok _ =>
    if dget st "last_context" = some old then
      { exit := 0, out := [], err := [], state := dset st "last_context" new,
        wrote := true, calls := [ExtCall.renameContext old new] }
    else
      { exit := 0, out := [], err := [], state := st, wrote := false,
        calls := [ExtCall.renameContext old new] }

/-- Embeds `delete_context_command`: loads state before the external
delete; on success, removes `last_context` exactly when it equalled the
deleted name. -/
def delete_context_command (st : Dict) (deleteRes : Completed)
    (name : String) : CmdOut :=
  let last := dget st "last_context"
  match delete_context deleteRes name with
  | Except.error msg =>
    { exit := 1, out := [], err := [msg], state := st, wrote := false,
      calls := [ExtCall.deleteContext name] }
  | Except.ok _ =>
    if last = some name then
      { exit := 0, out := [], err := [], state := dpop st "last_context",
        wrote := true, calls := [ExtCall.deleteContext name] }
    else
      { exit := 0, out := [], err := [], state := st, wrote := false,
        calls := [ExtCall.deleteContext name] }

/-- A JSON value, as produced by `json.loads` on the state file. Numbers
are modelled by integers (the state file only ever holds strings). -/
inductive Json where
  | null : Json
  | bool (b : Bool) : Json
  | num (n : Int) : Json
  | str (s : String) : Json
  | arr (xs : List Json) : Json
  | obj (kvs : List (String × Json)) : Json

mutual

/-- Models Python `repr` on a value obtained from `json.loads`. -/
def pyReprJson : Json → String
  | Json.null => "None"
  | Json.bool true => "True"
  | Json.bool false => "False"
  | Json.num n => toString n
  | Json.str s => pyRepr s
  | Json.arr xs => "[" ++ String.intercalate ", " (pyReprList xs) ++ "]"
  | Json.obj kvs => "\x7b" ++ String.intercalate ", " (pyReprObj kvs) ++ "\x7d"

/-- Renders the elements of a JSON array by `repr`. -/
def pyReprList : List Json → List String
  | [] => []
  | x :: rest => pyReprJson x :: pyReprList rest

/-- Renders the entries of a JSON object by `repr`. -/
def pyReprObj : List (String × Json) → List String
  | [] => []
  | kv :: rest => (pyRepr kv.1 ++ ": " ++ pyReprJson kv.2) :: pyReprObj rest

end

/-- Models Python `str` on a value obtained from `json.loads`: identity on
strings, the `repr` rendering otherwise. -/
def pyStr : Json → String
  | Json.null => "None"
  | Json.bool true => "True"
  | Json.bool false => "False"
  | Json.num n => toString n
  | Json.str s => s
  | Json.arr xs => "[" ++ String.intercalate ", " (pyReprList xs) ++ "]"
  | Json.obj kvs => "\x7b" ++ String.intercalate ", " (pyReprObj kvs) ++ "\x7d"

/-- What reading and parsing the state file can yield: `none` when the
file does not exist, `Except.error` when reading or `json.loads` raises,
`Except.ok` with the parsed value otherwise. -/
abbrev FileRead := Option (Except Unit Json)

/-- Embeds `load_state`: empty dict when the file is absent, unreadable,
unparseable, or parses to a non-dict; otherwise the comprehension
`(str(key), str(value))` over the parsed object (JSON object keys are
already strings, so `str(key)` is the key itself). -/
def load_state (file : FileRead) : Dict :=
  match file with
  | none => []
  | some (Except.error _) => []
  | some (Except.ok (Json.obj kvs)) => kvs.map (fun kv => (kv.1, pyStr kv.2))
  | some (Except.ok _) => []

/-- The state file name used by the source (`state.json` under the base
directory). -/
def STATE_FILE_NAME : String := "state.json"

/-- A file-system operation performed by the state store, for observing
how `save_state` writes. -/
inductive FsOp where
  | mkdirBase : FsOp
  | write (path content : String) : FsOp
  | rename (src dst : String) : FsOp
deriving DecidableEq

/-- Ordering of persisted entries by key, modelling `sort_keys=True`. -/
def keyLe (p q : String × String) : Prop := p.1 ≤ q.1

instance : DecidableRel keyLe := fun p q => inferInstanceAs (Decidable (p.1 ≤ q.1))

instance : IsTotal (String × String) keyLe := ⟨fun p q => le_total p.1 q.1⟩

instance : IsTrans (String × String) keyLe := ⟨fun _ _ _ h1 h2 => le_trans h1 h2⟩

/-- The persisted entries in sorted key order, as `json.dumps` with
`sort_keys=True` emits them. -/
def sortByKey (st : Dict) : Dict := st.insertionSort keyLe

/-- One serialized entry of `json.dumps(state, indent=2, sort_keys=True)`. -/
def dumpsEntry (kv : String × String) : String :=
  "  \"" ++ kv.1 ++ "\": \"" ++ kv.2 ++ "\""

/-- Models `json.dumps(state, indent=2, sort_keys=True)` on a
string-to-string dict (escaping of special characters is not modelled). -/
def dumps (st : Dict) : String :=
  if st = [] then "\x7b\x7d"
  else "\x7b\n" ++ String.intercalate ",\n" ((sortByKey st).map dumpsEntry) ++ "\n\x7d"

/-- Embeds `save_state` as its trace of file-system operations: it ensures
the base directory, then writes the serialized state directly to the
state file with `Path.write_text`. -/
def save_state (st : Dict) : List FsOp :=
  [FsOp.mkdirBase, FsOp.write STATE_FILE_NAME (dumps st)]

/-- AtomicWriteSpec follows the words of the spec, not the source: a
write is atomic enough (write-then-rename or equivalent) when the state
file path is never the target of a direct write, and its content is
installed by renaming a fully written temporary file onto it. -/
def AtomicWriteSpec (ops : List FsOp) : Prop :=
  (∀ c, FsOp.write STATE_FILE_NAME c ∉ ops) ∧
  ∃ tmp c, FsOp.write tmp c ∈ ops ∧ FsOp.rename tmp STATE_FILE_NAME ∈ ops

/-- Builds the `current-context` call result a kubectl with the given
current context produces: success with the name on stdout, or failure
when no context is set. -/
def mkCurrentCompleted : Option String → Completed
  | some c => { returncode := 0, stdout := c, stderr := "" }
  | none => { returncode := 1, stdout := "", stderr := "" }

/-- Runs one toggle invocation against an external tool obeying the
standard semantics assumed by the spec: `use-context` succeeds and makes
its target the current context. Returns the command outcome and the
current context of the external tool afterwards. -/
def toggleStep (labels : Dict) (cur : Option String) (st : Dict) : CmdOut × Option String :=
  match get_last_context st with
  | none =>
    (switch_context_command st labels false false
      { currentBefore := mkCurrentCompleted cur,
        useRes := { returncode := 0, stdout := "", stderr := "" },
        currentAfter := mkCurrentCompleted cur } "-", cur)
  | some l =>
    (switch_context_command st labels false false
      { currentBefore := mkCurrentCompleted cur,
        useRes := { returncode := 0, stdout := "", stderr := "" },
        currentAfter := mkCurrentCompleted (some l) } "-", some l)

theorem dget_set_present (d : Dict) (k v : String) (h : dhas d k = true) :
    dget (d.map (fun p => if p.1 = k then (k, v) else p)) k = some v := by
  induction d with
  | nil => simp [dhas] at h
  | cons p rest ih =>
    by_cases hp : p.1 = k
    · simp [dget, hp]
    · simp [dhas, hp] at h
      simp [dget, hp, ih h]

theorem dget_append_absent (d : Dict) (k v : String) (h : dhas d k = false) :
    dget (d ++ [(k, v)]) k = some v := by
  induction d with
  | nil => simp [dget]
  | cons p rest ih =>
    simp [dhas] at h
    simp [dget, h.1, ih h.2]

theorem dget_dset_self (d : Dict) (k v : String) : dget (dset d k v) k = some v := by
  unfold dset
  by_cases h : dhas d k = true
  · simp [h, dget_set_present d k v h]
  · simp [h, dget_append_absent d k v (by simpa using h)]

theorem dget_map_ne (d : Dict) (k k' v : String) (h : k' ≠ k) :
    dget (d.map (fun p => if p.1 = k then (k, v) else p)) k' = dget d k' := by
  induction d with
  | nil => rfl
  | cons p rest ih =>
    have hk : k ≠ k' := fun hc => h hc.symm
    by_cases hp : p.1 = k
    · simp [dget, hp, hk, ih]
    · by_cases hp' : p.1 = k'
      · simp [dget, hp, hp', h]
      · simp [dget, hp, hp', ih]

theorem dget_append_ne (d : Dict) (k k' v : String) (h : k' ≠ k) :
    dget (d ++ [(k, v)]) k' = dget d k' := by
  induction d with
  | nil => simp [dget, Ne.symm h]
  | cons p rest ih =>
    by_cases hp : p.1 = k'
    · simp [dget, hp]
    · simp [dget, hp, ih]

theorem dget_dset_ne (d : Dict) (k k' v : String) (h : k' ≠ k) :
    dget (dset d k v) k' = dget d k' := by
  unfold dset
  by_cases hh : dhas d k = true
  · simp [hh, dget_map_ne d k k' v h]
  · simp [hh, dget_append_ne d k k' v h]

theorem dget_dpop_self (d : Dict) (k : String) : dget (dpop d k) k = none := by
  induction d with
  | nil => rfl
  | cons p rest ih =>
    by_cases hp : p.1 = k
    · simpa [dpop, hp] using ih
    · simpa [dpop, dget, hp] using ih

theorem dget_dpop_ne (d : Dict) (k k' : String) (h : k' ≠ k) :
    dget (dpop d k) k' = dget d k' := by
  induction d with
  | nil => rfl
  | cons p rest ih =>
    by_cases hp : p.1 = k
    · have hk : k ≠ k' := fun hc => h hc.symm
      simpa [dpop, dget, List.filter_cons, hp, hk] using ih
    · by_cases hp' : p.1 = k'
      · simp [dpop, dget, List.filter_cons, hp, hp', h]
      · simpa [dpop, dget, List.filter_cons, hp, hp'] using ih

/-- C1: for every successful switch command with target not equal to "-",
if the current context immediately before the switch was some known name
A, then after the switch the persisted state has `last_context = A`
(overwriting any prior value) and the state was written; if no current
context was known before the switch, the persisted state is not written
and is unchanged. -/
theorem switch_records_previous_current (st labels : Dict) (outTty errTty : Bool)
    (calls : SwitchCalls) (target : String)
    (hT : target ≠ "-") (hOk : calls.useRes.returncode = 0) :
    (∀ A, get_current_context calls.currentBefore = some A →
      dget (switch_context_command st labels outTty errTty calls target).state
        "last_context" = some A ∧
      (switch_context_command st labels outTty errTty calls target).wrote = true) ∧
    (get_current_context calls.currentBefore = none →
      (switch_context_command st labels outTty errTty calls target).state = st ∧
      (switch_context_command st labels outTty errTty calls target).wrote = false) := by
  constructor
  · intro A hA
    simp [switch_context_command, hT, use_context, hOk, hA, record_last_context,
      dget_dset_self]
  · intro hA
    simp [switch_context_command, hT, use_context, hOk, hA, record_last_context]

/-- Witness for C1 at a concrete successful switch from current context
`a` to target `b`. -/
theorem switch_records_previous_current_witness :
    dget (switch_context_command [] [] false false
      { currentBefore := { returncode := 0, stdout := "a", stderr := "" },
        useRes := { returncode := 0, stdout := "", stderr := "" },
        currentAfter := { returncode := 0, stdout := "b", stderr := "" } } "b").state
      "last_context" = some "a" ∧
    (switch_context_command [] [] false false
      { currentBefore := { returncode := 0, stdout := "a", stderr := "" },
        useRes := { returncode := 0, stdout := "", stderr := "" },
        currentAfter := { returncode := 0, stdout := "b", stderr := "" } } "b").wrote
      = true :=
  (switch_records_previous_current [] [] false false
    { currentBefore := { returncode := 0, stdout := "a", stderr := "" },
      useRes := { returncode := 0, stdout := "", stderr := "" },
      currentAfter := { returncode := 0, stdout := "b", stderr := "" } } "b"
    (by decide) rfl).1 "a" (by decide)

/-- C5: invoking the toggle command when the persisted state has no
`last_context` key fails with exit status 1 and the distinct message,
performs no external switch call, and does not mutate the persisted
state. -/
theorem toggle_without_last_noop (st labels : Dict) (outTty errTty : Bool)
    (calls : SwitchCalls) (h : dget st "last_context" = none) :
    (switch_context_command st labels outTty errTty calls "-").exit = 1 ∧
    (switch_context_command st labels outTty errTty calls "-").err =
      ["No last context recorded yet."] ∧
    (switch_context_command st labels outTty errTty calls "-").state = st ∧
    (switch_context_command st labels outTty errTty calls "-").wrote = false ∧
    ∀ c ∈ (switch_context_command st labels outTty errTty calls "-").calls,
      ∀ n, c ≠ ExtCall.useContext n := by
  simp [switch_context_command, get_last_context, h]

/-- Witness for C5 with an empty persisted state. -/
theorem toggle_without_last_noop_witness :
    (switch_context_command [] [] false false
      { currentBefore := { returncode := 0, stdout := "a", stderr := "" },
        useRes := { returncode := 0, stdout := "", stderr := "" },
        currentAfter := { returncode := 0, stdout := "a", stderr := "" } } "-").exit
      = 1 ∧
    (switch_context_command [] [] false false
      { currentBefore := { returncode := 0, stdout := "a", stderr := "" },
        useRes := { returncode := 0, stdout := "", stderr := "" },
        currentAfter := { returncode := 0, stdout := "a", stderr := "" } } "-").err
      = ["No last context recorded yet."] :=
  have h := toggle_without_last_noop [] [] false false
    { currentBefore := { returncode := 0, stdout := "a", stderr := "" },
      useRes := { returncode := 0, stdout := "", stderr := "" },
      currentAfter := { returncode := 0, stdout := "a", stderr := "" } } rfl
  ⟨h.1, h.2.1⟩

/-- C6: for every successful rename of OLD to NEW, if the persisted
`last_context` equals OLD it is updated to NEW (and the state is
written); otherwise the persisted state is left untouched and no write
occurs. -/
theorem rename_updates_matching_last (st : Dict) (r : Completed) (old new : String)
    (hOk : r.returncode = 0) :
    (rename_context_command st r old new).exit = 0 ∧
    (dget st "last_context" = some old →
      dget (rename_context_command st r old new).state "last_context" = some new ∧
      (rename_context_command st r old new).wrote = true) ∧
    (dget st "last_context" ≠ some old →
      (rename_context_command st r old new).state = st ∧
      (rename_context_command st r old new).wrote = false) := by
  refine ⟨?_, ?_, ?_⟩
  · by_cases hl : dget st "last_context" = some old <;>
      simp [rename_context_command, rename_context, hOk, hl]
  · intro hl
    simp [rename_context_command, rename_context, hOk, hl, dget_dset_self]
  · intro hl
    simp [rename_context_command, rename_context, hOk, hl]

/-- Witness for C6 renaming `a` (the recorded last context) to `b`. -/
theorem rename_updates_matching_last_witness :
    dget (rename_context_command [("last_context", "a")]
      { returncode := 0, stdout := "", stderr := "" } "a" "b").state
      "last_context" = some "b" :=
  ((rename_updates_matching_last [("last_context", "a")]
    { returncode := 0, stdout := "", stderr := "" } "a" "b" rfl).2.1 (by decide)).1

/-- C7: for every successful delete of NAME, if the persisted
`last_context` equals NAME the entry is removed (lookup becomes `none`
and the state is written); otherwise the persisted state is left
unchanged and no write occurs. -/
theorem delete_removes_matching_last (st : Dict) (d : Completed) (name : String)
    (hOk : d.returncode = 0) :
    (delete_context_command st d name).exit = 0 ∧
    (dget st "last_context" = some name →
      dget (delete_context_command st d name).state "last_context" = none ∧
      (delete_context_command st d name).wrote = true) ∧
    (dget st "last_context" ≠ some name →
      (delete_context_command st d name).state = st ∧
      (delete_context_command st d name).wrote = false) := by
  refine ⟨?_, ?_, ?_⟩
  · by_cases hl : dget st "last_context" = some name <;>
      simp [delete_context_command, delete_context, hOk, hl]
  · intro hl
    simp [delete_context_command, delete_context, hOk, hl, dget_dpop_self]
  · intro hl
    simp [delete_context_command, delete_context, hOk, hl]

/-- Witness for C7 deleting the recorded last context `a`. -/
theorem delete_removes_matching_last_witness :
    dget (delete_context_command [("last_context", "a")]
      { returncode := 0, stdout := "", stderr := "" } "a").state
      "last_context" = none :=
  ((delete_removes_matching_last [("last_context", "a")]
    { returncode := 0, stdout := "", stderr := "" } "a" rfl).2.1 (by decide)).1

/-- C3: for every switch, toggle, rename, or delete command whose
delegated external call fails (non-zero exit), the command returns exit
status 1, the persisted state is not written (unchanged), and the
reported stderr message preserves the external tool stderr text (the
stripped stderr is a suffix of the message) whenever that text is
nonempty after stripping. -/
theorem failed_external_call_propagates (st labels : Dict) (outTty errTty : Bool)
    (calls : SwitchCalls) (target : String) (r d : Completed) (old new name : String) :
    (target ≠ "-" → calls.useRes.returncode ≠ 0 →
      (switch_context_command st labels outTty errTty calls target).exit = 1 ∧
      (switch_context_command st labels outTty errTty calls target).state = st ∧
      (switch_context_command st labels outTty errTty calls target).wrote = false ∧
      (pyStrip calls.useRes.stderr ≠ "" →
        ∃ p, (switch_context_command st labels outTty errTty calls target).err =
          [p ++ pyStrip calls.useRes.stderr])) ∧
    (∀ l, dget st "last_context" = some l → calls.useRes.returncode ≠ 0 →
      (switch_context_command st labels outTty errTty calls "-").exit = 1 ∧
      (switch_context_command st labels outTty errTty calls "-").state = st ∧
      (switch_context_command st labels outTty errTty calls "-").wrote = false ∧
      (pyStrip calls.useRes.stderr ≠ "" →
        ∃ p, (switch_context_command st labels outTty errTty calls "-").err =
          [p ++ pyStrip calls.useRes.stderr])) ∧
    (r.returncode ≠ 0 →
      (rename_context_command st r old new).exit = 1 ∧
      (rename_context_command st r old new).state = st ∧
      (rename_context_command st r old new).wrote = false ∧
      (pyStrip r.stderr ≠ "" →
        ∃ p, (rename_context_command st r old new).err = [p ++ pyStrip r.stderr])) ∧
    (d.returncode ≠ 0 →
      (delete_context_command st d name).exit = 1 ∧
      (delete_context_command st d name).state = st ∧
      (delete_context_command st d name).wrote = false ∧
      (pyStrip d.stderr ≠ "" →
        ∃ p, (delete_context_command st d name).err = [p ++ pyStrip d.stderr])) := by
  refine ⟨?_, ?_, ?_, ?_⟩
  · intro hT hr
    refine ⟨?_, ?_, ?_, ?_⟩ <;>
      simp [switch_context_command, hT, use_context, hr, errMsg]
    intro hs
    exact ⟨"Failed to switch context to " ++ pyRepr target ++ ": ", by simp [hs]⟩
  · intro l hl hr
    refine ⟨?_, ?_, ?_, ?_⟩ <;>
      simp [switch_context_command, get_last_context, hl, use_context, hr, errMsg]
    intro hs
    exact ⟨"Failed to switch context to " ++ pyRepr l ++ ": ", by simp [hs]⟩
  · intro hr
    refine ⟨?_, ?_, ?_, ?_⟩ <;>
      simp [rename_context_command, rename_context, hr, errMsg]
    intro hs
    exact ⟨"Failed to rename context " ++ pyRepr old ++ " → " ++ pyRepr new ++ ": ",
      by simp [hs]⟩
  · intro hr
    refine ⟨?_, ?_, ?_, ?_⟩ <;>
      simp [delete_context_command, delete_context, hr, errMsg]
    intro hs
    exact ⟨"Failed to delete context " ++ pyRepr name ++ ": ", by simp [hs]⟩

/-- Witness for C3: the external switch to `x` fails with the stderr of
end-to-end scenario 4; the command exits 1, keeps the state, and the
message ends with that stderr text. -/
theorem failed_external_call_propagates_witness :
    (switch_context_command [("last_context", "b")] [] false false
      { currentBefore := { returncode := 0, stdout := "a", stderr := "" },
        useRes := { returncode := 1, stdout := "", stderr := "context \"x\" does not exist" },
        currentAfter := { returncode := 0, stdout := "a", stderr := "" } } "x").exit
      = 1 ∧
    (switch_context_command [("last_context", "b")] [] false false
      { currentBefore := { returncode := 0, stdout := "a", stderr := "" },
        useRes := { returncode := 1, stdout := "", stderr := "context \"x\" does not exist" },
        currentAfter := { returncode := 0, stdout := "a", stderr := "" } } "x").state
      = [("last_context", "b")] ∧
    ∃ p, (switch_context_command [("last_context", "b")] [] false false
      { currentBefore := { returncode := 0, stdout := "a", stderr := "" },
        useRes := { returncode := 1, stdout := "", stderr := "context \"x\" does not exist" },
        currentAfter := { returncode := 0, stdout := "a", stderr := "" } } "x").err
      = [p ++ "context \"x\" does not exist"] := by
  have h := (failed_external_call_propagates [("last_context", "b")] [] false false
    { currentBefore := { returncode := 0, stdout := "a", stderr := "" },
      useRes := { returncode := 1, stdout := "", stderr := "context \"x\" does not exist" },
      currentAfter := { returncode := 0, stdout := "a", stderr := "" } } "x"
    { returncode := 0, stdout := "", stderr := "" }
    { returncode := 0, stdout := "", stderr := "" } "o" "n" "d").1
    (by decide) (by decide)
  refine ⟨h.1, h.2.1, ?_⟩
  obtain ⟨p, hp⟩ := h.2.2.2 (by decide)
  refine ⟨p, ?_⟩
  rw [hp]
  have hs : pyStrip "context \"x\" does not exist" = "context \"x\" does not exist" := by
    decide
  rw [hs]

/-- C4: after any successful switch (normal or toggle) whose re-queried
current context carries a label equal to "prod" case-insensitively, the
warning line is emitted on stderr (distinct from the stdout result line,
which is nonempty) and the command still exits 0; for any other label, or
for an unlabeled context, no stderr line is emitted. -/
theorem prod_warning_policy (st labels : Dict) (outTty errTty : Bool)
    (calls : SwitchCalls) (target nc : String)
    (hOk : calls.useRes.returncode = 0)
    (hNC : get_current_context calls.currentAfter = some nc) :
    (target ≠ "-" →
      (switch_context_command st labels outTty errTty calls target).exit = 0 ∧
      (∀ env, dget labels nc = some env → pyLower env = "prod" →
        (switch_context_command st labels outTty errTty calls target).err =
          ["WARNING: context " ++ pyRepr nc ++ " is labeled "
            ++ format_env_label env errTty] ∧
        (switch_context_command st labels outTty errTty calls target).out ≠ []) ∧
      (∀ env, dget labels nc = some env → pyLower env ≠ "prod" →
        (switch_context_command st labels outTty errTty calls target).err = []) ∧
      (dget labels nc = none →
        (switch_context_command st labels outTty errTty calls target).err = [])) ∧
    (∀ l, dget st "last_context" = some l →
      (switch_context_command st labels outTty errTty calls "-").exit = 0 ∧
      (∀ env, dget labels nc = some env → pyLower env = "prod" →
        (switch_context_command st labels outTty errTty calls "-").err =
          ["WARNING: context " ++ pyRepr nc ++ " is labeled "
            ++ format_env_label env errTty] ∧
        (switch_context_command st labels outTty errTty calls "-").out ≠ []) ∧
      (∀ env, dget labels nc = some env → pyLower env ≠ "prod" →
        (switch_context_command st labels outTty errTty calls "-").err = []) ∧
      (dget labels nc = none →
        (switch_context_command st labels outTty errTty calls "-").err = [])) := by
  constructor
  · intro hT
    refine ⟨?_, ?_, ?_, ?_⟩
    · simp [switch_context_command, hT, use_context, hOk]
    · intro env henv hprod
      simp [switch_context_command, hT, use_context, hOk, hNC, renderSuccess,
        warn_if_prod, henv, hprod]
    · intro env henv hnp
      simp [switch_context_command, hT, use_context, hOk, hNC, renderSuccess,
        warn_if_prod, henv, hnp]
    · intro hnone
      simp [switch_context_command, hT, use_context, hOk, hNC, renderSuccess,
        warn_if_prod, hnone]
  · intro l hl
    refine ⟨?_, ?_, ?_, ?_⟩
    · simp [switch_context_command, get_last_context, hl, use_context, hOk]
    · intro env henv hprod
      simp [switch_context_command, get_last_context, hl, use_context, hOk, hNC,
        renderSuccess, warn_if_prod, henv, hprod]
    · intro env henv hnp
      simp [switch_context_command, get_last_context, hl, use_context, hOk, hNC,
        renderSuccess, warn_if_prod, henv, hnp]
    · intro hnone
      simp [switch_context_command, get_last_context, hl, use_context, hOk, hNC,
        renderSuccess, warn_if_prod, hnone]

/-- Witness for C4: switching to `prod-cluster`, labeled `env = prod`,
emits the warning on stderr and exits 0 (end-to-end scenario 3). -/
theorem prod_warning_policy_witness :
    (switch_context_command [] [("prod-cluster", "prod")] false false
      { currentBefore := { returncode := 0, stdout := "a", stderr := "" },
        useRes := { returncode := 0, stdout := "", stderr := "" },
        currentAfter := { returncode := 0, stdout := "prod-cluster", stderr := "" } }
      "prod-cluster").err
      = ["WARNING: context \x27prod-cluster\x27 is labeled [prod]"] ∧
    (switch_context_command [] [("prod-cluster", "prod")] false false
      { currentBefore := { returncode := 0, stdout := "a", stderr := "" },
        useRes := { returncode := 0, stdout := "", stderr := "" },
        currentAfter := { returncode := 0, stdout := "prod-cluster", stderr := "" } }
      "prod-cluster").exit = 0 := by
  have h := (prod_warning_policy [] [("prod-cluster", "prod")] false false
    { currentBefore := { returncode := 0, stdout := "a", stderr := "" },
      useRes := { returncode := 0, stdout := "", stderr := "" },
      currentAfter := { returncode := 0, stdout := "prod-cluster", stderr := "" } }
    "prod-cluster" "prod-cluster" rfl (by decide)).1 (by decide)
  have hw := (h.2.1 "prod" (by decide) (by decide)).1
  exact ⟨hw.trans (by decide), h.1⟩

/-- C10: every state-writing operation (recording the last context in a
normal or toggle switch, rename, delete) touches at most the
`last_context` key: any other key keeps the value it had in the loaded
state. -/
theorem writes_touch_only_last_context (st labels : Dict) (outTty errTty : Bool)
    (calls : SwitchCalls) (target : String) (r d : Completed)
    (old new name k : String) (hk : k ≠ "last_context") :
    dget (switch_context_command st labels outTty errTty calls target).state k
      = dget st k ∧
    dget (rename_context_command st r old new).state k = dget st k ∧
    dget (delete_context_command st d name).state k = dget st k := by
  refine ⟨?_, ?_, ?_⟩
  · by_cases hT : target = "-"
    · cases hl : get_last_context st with
      | none => simp [switch_context_command, hT, hl]
      | some l =>
        by_cases hr : calls.useRes.returncode = 0
        · cases hcb : get_current_context calls.currentBefore with
          | none =>
            simp [switch_context_command, hT, hl, use_context, hr, hcb,
              record_last_context]
          | some c =>
            simp [switch_context_command, hT, hl, use_context, hr, hcb,
              record_last_context, dget_dset_ne st "last_context" k c hk]
        · simp [switch_context_command, hT, hl, use_context, hr]
    · by_cases hr : calls.useRes.returncode = 0
      · cases hcb : get_current_context calls.currentBefore with
        | none =>
          simp [switch_context_command, hT, use_context, hr, hcb,
            record_last_context]
        | some c =>
          simp [switch_context_command, hT, use_context, hr, hcb,
            record_last_context, dget_dset_ne st "last_context" k c hk]
      · simp [switch_context_command, hT, use_context, hr]
  · by_cases hr : r.returncode = 0
    · by_cases hl : dget st "last_context" = some old
      · simp [rename_context_command, rename_context, hr, hl,
          dget_dset_ne st "last_context" k new hk]
      · simp [rename_context_command, rename_context, hr, hl]
    · simp [rename_context_command, rename_context, hr]
  · by_cases hr : d.returncode = 0
    · by_cases hl : dget st "last_context" = some name
      · simp [delete_context_command, delete_context, hr, hl,
          dget_dpop_ne st "last_context" k hk]
      · simp [delete_context_command, delete_context, hr, hl]
    · simp [delete_context_command, delete_context, hr]

/-- Witness for C10: a rename that rewrites `last_context` leaves the
unrelated key `other` untouched. -/
theorem writes_touch_only_last_context_witness :
    dget (rename_context_command [("other", "v"), ("last_context", "a")]
      { returncode := 0, stdout := "", stderr := "" } "a" "b").state "other"
      = dget [("other", "v"), ("last_context", "a")] "other" :=
  (writes_touch_only_last_context [("other", "v"), ("last_context", "a")] [] false false
    { currentBefore := { returncode := 0, stdout := "", stderr := "" },
      useRes := { returncode := 0, stdout := "", stderr := "" },
      currentAfter := { returncode := 0, stdout := "", stderr := "" } } "x"
    { returncode := 0, stdout := "", stderr := "" }
    { returncode := 0, stdout := "", stderr := "" } "a" "b" "c" "other"
    (by decide)).2.1

/-- C8: `load_state` never raises and is fail-soft: an absent file, a
read or parse failure, or a parse result that is not a mapping all yield
the empty mapping; a parsed mapping yields its entries with every key and
value coerced to a string. -/
theorem load_state_failsoft (file : FileRead) :
    (file = none → load_state file = []) ∧
    (∀ e, file = some (Except.error e) → load_state file = []) ∧
    (∀ j, file = some (Except.ok j) →
      ((∀ kvs, j ≠ Json.obj kvs) → load_state file = []) ∧
      ∀ kvs, j = Json.obj kvs →
        load_state file = kvs.map (fun kv => (kv.1, pyStr kv.2))) := by
  refine ⟨?_, ?_, ?_⟩
  · intro h; subst h; rfl
  · intro e h; subst h; rfl
  · intro j h; subst h
    constructor
    · intro hno
      cases j with
      | obj kvs => exact absurd rfl (hno kvs)
      | null => rfl
      | bool b => rfl
      | num n => rfl
      | str s => rfl
      | arr xs => rfl
    · intro kvs hj; subst hj; rfl

/-- Witness for C8: a parsed object with a string and a non-string value
loads as the string-coerced mapping. -/
theorem load_state_failsoft_witness :
    load_state (some (Except.ok
      (Json.obj [("last_context", Json.str "a"), ("n", Json.num 3)])))
      = [("last_context", "a"), ("n", "3")] := by
  have h := ((load_state_failsoft (some (Except.ok
    (Json.obj [("last_context", Json.str "a"), ("n", Json.num 3)])))).2.2
    (Json.obj [("last_context", Json.str "a"), ("n", Json.num 3)]) rfl).2
    [("last_context", Json.str "a"), ("n", Json.num 3)] rfl
  exact h.trans (by decide)

/-- C9 counterexample: `save_state` does not satisfy the atomic
write-then-rename discipline the claim describes: its trace writes the
state file path directly and contains no rename. -/
theorem save_state_not_atomic :
    ¬ AtomicWriteSpec (save_state [("last_context", "a")]) := by
  intro h
  exact h.1 (dumps [("last_context", "a")]) (by simp [save_state])

/-- C9 amended: `save_state` serializes the full mapping in sorted key
order (the serialized entry list is a permutation of the state, sorted by
key), ensures the base directory first, and then installs the content
with a single direct write to the state file path, performing no rename:
the write is plain truncate-and-write, not write-then-rename. -/
theorem save_state_sorted_direct_write (st : Dict) :
    save_state st = [FsOp.mkdirBase, FsOp.write STATE_FILE_NAME (dumps st)] ∧
    (∀ src dst, FsOp.rename src dst ∉ save_state st) ∧
    List.Sorted keyLe (sortByKey st) ∧ (sortByKey st).Perm st := by
  refine ⟨rfl, ?_, ?_, ?_⟩
  · intro src dst h
    simp [save_state] at h
  · exact List.sorted_insertionSort keyLe st
  · exact List.perm_insertionSort keyLe st

/-- C2: toggle is an involution on a two-context history: starting with
current context A and persisted `last_context = B`, two toggles (both
external switches succeeding, nothing in between) return the current
context to A and the persisted `last_context` to B, with both commands
exiting 0. -/
theorem toggle_involution (A B : String) (st0 labels : Dict)
    (_hAB : A ≠ B) (hA1 : pyStrip A = A) (hA0 : A ≠ "")
    (hB1 : pyStrip B = B) (hB0 : B ≠ "")
    (hlast : dget st0 "last_context" = some B) :
    (toggleStep labels (toggleStep labels (some A) st0).2
      (toggleStep labels (some A) st0).1.state).2 = some A ∧
    dget (toggleStep labels (toggleStep labels (some A) st0).2
      (toggleStep labels (some A) st0).1.state).1.state "last_context" = some B ∧
    (toggleStep labels (some A) st0).1.exit = 0 ∧
    (toggleStep labels (toggleStep labels (some A) st0).2
      (toggleStep labels (some A) st0).1.state).1.exit = 0 := by
  have hcur1 : (toggleStep labels (some A) st0).2 = some B := by
    simp [toggleStep, get_last_context, hlast]
  have hst1 : (toggleStep labels (some A) st0).1.state = dset st0 "last_context" A := by
    simp [toggleStep, get_last_context, hlast, switch_context_command, use_context,
      mkCurrentCompleted, get_current_context, hA1, hA0, record_last_context]
  have hexit1 : (toggleStep labels (some A) st0).1.exit = 0 := by
    simp [toggleStep, get_last_context, hlast, switch_context_command, use_context,
      mkCurrentCompleted, get_current_context, hA1, hA0, record_last_context]
  rw [hcur1, hst1]
  have hlast1 : dget (dset st0 "last_context" A) "last_context" = some A :=
    dget_dset_self st0 "last_context" A
  have hst2 : (toggleStep labels (some B) (dset st0 "last_context" A)).1.state
      = dset (dset st0 "last_context" A) "last_context" B := by
    simp [toggleStep, get_last_context, hlast1, switch_context_command, use_context,
      mkCurrentCompleted, get_current_context, hB1, hB0, record_last_context]
  refine ⟨?_, ?_, hexit1, ?_⟩
  · simp [toggleStep, get_last_context, hlast1]
  · rw [hst2]
    exact dget_dset_self (dset st0 "last_context" A) "last_context" B
  · simp [toggleStep, get_last_context, hlast1, switch_context_command, use_context,
      mkCurrentCompleted, get_current_context, hB1, hB0, record_last_context]

/-- Witness for C2: starting at `a` with `last_context = b`, two toggles
land back on `a` with `last_context = b`. -/
theorem toggle_involution_witness :
    (toggleStep [] (toggleStep [] (some "a") [("last_context", "b")]).2
      (toggleStep [] (some "a") [("last_context", "b")]).1.state).2 = some "a" ∧
    dget (toggleStep [] (toggleStep [] (some "a") [("last_context", "b")]).2
      (toggleStep [] (some "a") [("last_context", "b")]).1.state).1.state
      "last_context" = some "b" :=
  have h := toggle_involution "a" "b" [("last_context", "b")] []
    (by decide) (by decide) (by decide) (by decide) (by decide) (by decide)
  ⟨h.1, h.2.1⟩
